import Mathlib

/-!
Verification development for the bitboard chess move-generation core.

The Rust source is shallowly embedded: `u64` bitboards become `Nat` values
(with an explicit `% 2 ^ 64` wherever a Rust left shift could wrap),
fallible functions return `Except`, and the `while` loops of the source
become fuel-indexed structural recursions (the fuel bound 64 is never
reached for 64-bit inputs, since each iteration either drops a set bit or
shifts the working mask one square further along a ray).
-/

set_option maxRecDepth 10000

/-- Size of the u64 value space; Rust left shifts on u64 wrap modulo this. -/
def u64size : Nat := 2 ^ 64

/-- Rust bitwise complement `!x` on u64 (operands are < 2 ^ 64). -/
def notU64 (x : Nat) : Nat := x ^^^ (u64size - 1)

/-- Embeds `XCoordinate` from coordinates.rs (files A..H). -/
inductive XCoordinate where
  | A | B | C | D | E | F | G | H
deriving DecidableEq, Repr

/-- Embeds `YCoordinate` from coordinates.rs (ranks 1..8). -/
inductive YCoordinate where
  | One | Two | Three | Four | Five | Six | Seven | Eight
deriving DecidableEq, Repr

/-- The `repr(u64)` discriminant of each file: a column mask. -/
def XCoordinate.toU64 : XCoordinate → Nat
  | .A => 0x0101010101010101 <<< 7
  | .B => 0x0101010101010101 <<< 6
  | .C => 0x0101010101010101 <<< 5
  | .D => 0x0101010101010101 <<< 4
  | .E => 0x0101010101010101 <<< 3
  | .F => 0x0101010101010101 <<< 2
  | .G => 0x0101010101010101 <<< 1
  | .H => 0x0101010101010101

/-- The `repr(u64)` discriminant of each rank: a row mask. -/
def YCoordinate.toU64 : YCoordinate → Nat
  | .One => 0xFF
  | .Two => 0xFF <<< 8
  | .Three => 0xFF <<< (2 * 8)
  | .Four => 0xFF <<< (3 * 8)
  | .Five => 0xFF <<< (4 * 8)
  | .Six => 0xFF <<< (5 * 8)
  | .Seven => 0xFF <<< (6 * 8)
  | .Eight => 0xFF <<< (7 * 8)

/-- Embeds `ChessDirection` from chess_move.rs: 8 king steps and 8 knight moves. -/
inductive ChessDirection where
  | Up | UpRight | Right | DownRight | Down | DownLeft | Left | UpLeft
  | KnightOne | KnightTwo | KnightFour | KnightFive
  | KnightSeven | KnightEight | KnightTen | KnightEleven
deriving DecidableEq, Repr

/-- Embeds `get_valid_space` from moves/shared.rs: the valid-origin mask of a direction. -/
def get_valid_space : ChessDirection → Nat
  | .Up => notU64 (YCoordinate.Eight.toU64)
  | .UpRight => notU64 (YCoordinate.Eight.toU64 ||| XCoordinate.H.toU64)
  | .Right => notU64 (XCoordinate.H.toU64)
  | .DownRight => notU64 (YCoordinate.One.toU64 ||| XCoordinate.H.toU64)
  | .Down => notU64 (YCoordinate.One.toU64)
  | .DownLeft => notU64 (YCoordinate.One.toU64 ||| XCoordinate.A.toU64)
  | .Left => notU64 (XCoordinate.A.toU64)
  | .UpLeft => notU64 (XCoordinate.A.toU64 ||| YCoordinate.Eight.toU64)
  | .KnightOne => notU64 (YCoordinate.Seven.toU64 ||| YCoordinate.Eight.toU64 ||| XCoordinate.H.toU64)
  | .KnightTwo => notU64 (YCoordinate.Eight.toU64 ||| XCoordinate.G.toU64 ||| XCoordinate.H.toU64)
  | .KnightFour => notU64 (YCoordinate.One.toU64 ||| XCoordinate.G.toU64 ||| XCoordinate.H.toU64)
  | .KnightFive => notU64 (YCoordinate.One.toU64 ||| YCoordinate.Two.toU64 ||| XCoordinate.H.toU64)
  | .KnightSeven => notU64 (YCoordinate.One.toU64 ||| YCoordinate.Two.toU64 ||| XCoordinate.A.toU64)
  | .KnightEight => notU64 (YCoordinate.One.toU64 ||| XCoordinate.A.toU64 ||| XCoordinate.B.toU64)
  | .KnightTen => notU64 (YCoordinate.Eight.toU64 ||| XCoordinate.A.toU64 ||| XCoordinate.B.toU64)
  | .KnightEleven => notU64 (YCoordinate.Seven.toU64 ||| YCoordinate.Eight.toU64 ||| XCoordinate.A.toU64)

/-- The `Up` arm of `shift_move` from chess_move.rs; the composite arms of the
Rust `match` invoke `shift_move` recursively at this elementary direction. -/
def shift_move_up (x : Nat) : Nat := ((x &&& get_valid_space .Up) <<< 8) % u64size

/-- The `Right` arm of `shift_move`. -/
def shift_move_right (x : Nat) : Nat := (x &&& get_valid_space .Right) >>> 1

/-- The `Down` arm of `shift_move`. -/
def shift_move_down (x : Nat) : Nat := (x &&& get_valid_space .Down) >>> 8

/-- The `Left` arm of `shift_move`. -/
def shift_move_left (x : Nat) : Nat := ((x &&& get_valid_space .Left) <<< 1) % u64size

/-- Embeds `ChessShiftMove::shift_move` for u64 from chess_move.rs.  The Rust
composite arms call `shift_move` recursively at the elementary directions
Up / Down / Left / Right only; those four cases are factored out above so the
definition is structurally total. -/
def shift_move (x : Nat) (direction : ChessDirection) : Nat :=
  let valid_pieces := x &&& get_valid_space direction
  match direction with
  | .Up => (valid_pieces <<< 8) % u64size
  | .Right => valid_pieces >>> 1
  | .Down => valid_pieces >>> 8
  | .Left => (valid_pieces <<< 1) % u64size
  | .UpRight => shift_move_right (shift_move_up valid_pieces)
  | .DownRight => shift_move_right (shift_move_down valid_pieces)
  | .DownLeft => shift_move_left (shift_move_down valid_pieces)
  | .UpLeft => shift_move_left (shift_move_up valid_pieces)
  | .KnightOne => shift_move_right (shift_move_up (shift_move_up valid_pieces))
  | .KnightTwo => shift_move_right (shift_move_right (shift_move_up valid_pieces))
  | .KnightFour => shift_move_right (shift_move_right (shift_move_down valid_pieces))
  | .KnightFive => shift_move_right (shift_move_down (shift_move_down valid_pieces))
  | .KnightSeven => shift_move_left (shift_move_down (shift_move_down valid_pieces))
  | .KnightEight => shift_move_left (shift_move_left (shift_move_down valid_pieces))
  | .KnightTen => shift_move_left (shift_move_left (shift_move_up valid_pieces))
  | .KnightEleven => shift_move_left (shift_move_up (shift_move_up valid_pieces))

/-- The opposite of each direction, as listed in the specification (the
cardinal and diagonal cases agree with the `reverse_direction` tables of
straight_moves.rs and diagonal_moves.rs). -/
def oppositeDirection : ChessDirection → ChessDirection
  | .Up => .Down
  | .Down => .Up
  | .Left => .Right
  | .Right => .Left
  | .UpRight => .DownLeft
  | .DownLeft => .UpRight
  | .UpLeft => .DownRight
  | .DownRight => .UpLeft
  | .KnightOne => .KnightSeven
  | .KnightSeven => .KnightOne
  | .KnightTwo => .KnightEight
  | .KnightEight => .KnightTwo
  | .KnightFour => .KnightTen
  | .KnightTen => .KnightFour
  | .KnightFive => .KnightEleven
  | .KnightEleven => .KnightFive

/-- Selects the eight king-step (cardinal and diagonal) directions, the only
directions the pin detector ever passes to `check_for_pin`. -/
def isKingStepDirection : ChessDirection → Bool
  | .Up | .UpRight | .Right | .DownRight | .Down | .DownLeft | .Left | .UpLeft => true
  | _ => false

/-- Embeds `CoordinateError` from coordinates.rs.  String payloads are kept as
character lists (Rust `String` / `&str` values are sequences of characters). -/
inductive CoordinateError where
  | XCoordinateFromInvalidChar (c : Char)
  | YCoordinateFromInvalidChar (c : Char)
  | XYCoordinatesFromInvalidStr (s : List Char)
  | XYCoordinatesFromInvalidLengthStr (s : List Char)
  | XCoordinateFromInvalidBitmask (m : Nat)
  | YCoordinateFromInvalidBitmask (m : Nat)
  | XYCoordinatesFromEmptyBitmask (m : Nat)
  | XYCoordinatesFromMultiBitBitmask (m : Nat)
deriving DecidableEq, Repr

/-- Embeds `CoordinateConversion<char>::try_from_value` for `XCoordinate`. -/
def XCoordinate.tryFromChar (value : Char) : Except CoordinateError XCoordinate :=
  match value with
  | 'a' | 'A' => .ok .A
  | 'b' | 'B' => .ok .B
  | 'c' | 'C' => .ok .C
  | 'd' | 'D' => .ok .D
  | 'e' | 'E' => .ok .E
  | 'f' | 'F' => .ok .F
  | 'g' | 'G' => .ok .G
  | 'h' | 'H' => .ok .H
  | _ => .error (.XCoordinateFromInvalidChar value)

/-- Embeds `CoordinateConversion<char>::to_value` for `XCoordinate`. -/
def XCoordinate.toChar : XCoordinate → Char
  | .A => 'a'
  | .B => 'b'
  | .C => 'c'
  | .D => 'd'
  | .E => 'e'
  | .F => 'f'
  | .G => 'g'
  | .H => 'h'

/-- Embeds `CoordinateConversion<char>::try_from_value` for `YCoordinate`. -/
def YCoordinate.tryFromChar (value : Char) : Except CoordinateError YCoordinate :=
  match value with
  | '1' => .ok .One
  | '2' => .ok .Two
  | '3' => .ok .Three
  | '4' => .ok .Four
  | '5' => .ok .Five
  | '6' => .ok .Six
  | '7' => .ok .Seven
  | '8' => .ok .Eight
  | _ => .error (.YCoordinateFromInvalidChar value)

/-- Embeds `CoordinateConversion<char>::to_value` for `YCoordinate`. -/
def YCoordinate.toChar : YCoordinate → Char
  | .One => '1'
  | .Two => '2'
  | .Three => '3'
  | .Four => '4'
  | .Five => '5'
  | .Six => '6'
  | .Seven => '7'
  | .Eight => '8'

/-- Embeds `CoordinateConversion<u64>::try_from_value` for `XCoordinate`: a
counter loop over the eight files, rejecting masks meeting more than one. -/
def XCoordinate.tryFromU64 (value : Nat) : Except CoordinateError XCoordinate :=
  let r := [XCoordinate.A, .B, .C, .D, .E, .F, .G, .H].foldl
    (fun (acc : Nat × XCoordinate) i =>
      if value &&& i.toU64 > 0 then (acc.1 + 1, i) else acc)
    (0, XCoordinate.A)
  if r.1 > 1 then .error (.XCoordinateFromInvalidBitmask value) else .ok r.2

/-- Embeds `CoordinateConversion<u64>::try_from_value` for `YCoordinate`. -/
def YCoordinate.tryFromU64 (value : Nat) : Except CoordinateError YCoordinate :=
  let r := [YCoordinate.One, .Two, .Three, .Four, .Five, .Six, .Seven, .Eight].foldl
    (fun (acc : Nat × YCoordinate) i =>
      if value &&& i.toU64 > 0 then (acc.1 + 1, i) else acc)
    (0, YCoordinate.One)
  if r.1 > 1 then .error (.YCoordinateFromInvalidBitmask value) else .ok r.2

/-- Embeds `has_one_bit_set` from shared/mod.rs. -/
def has_one_bit_set (bitmask : Nat) : Bool :=
  bitmask != 0 && (bitmask &&& (bitmask - 1)) == 0

/-- Embeds `CoordinatePosition` from coordinate_point.rs. -/
structure CoordinatePosition where
  x : XCoordinate
  y : YCoordinate
deriving DecidableEq, Repr

/-- Embeds `CoordinatePosition::from_str`: length check, then the two
character conversions (the Rust `&str` argument is modelled as its character
sequence). -/
def CoordinatePosition.from_str (input : List Char) : Except CoordinateError CoordinatePosition :=
  match input with
  | [x_char, y_char] => do
    let x_enum ← XCoordinate.tryFromChar x_char
    let y_enum ← YCoordinate.tryFromChar y_char
    .ok ⟨x_enum, y_enum⟩
  | _ => .error (.XYCoordinatesFromInvalidLengthStr input)

/-- Embeds `CoordinatePosition::from_bitmask`. -/
def CoordinatePosition.from_bitmask (bitmask : Nat) : Except CoordinateError CoordinatePosition :=
  if has_one_bit_set bitmask then do
    let x_enum ← XCoordinate.tryFromU64 bitmask
    let y_enum ← YCoordinate.tryFromU64 bitmask
    .ok ⟨x_enum, y_enum⟩
  else if bitmask ≠ 0 then
    .error (.XYCoordinatesFromMultiBitBitmask bitmask)
  else
    .error (.XYCoordinatesFromEmptyBitmask bitmask)

/-- Embeds `CoordinatePosition::to_bitmask`: the intersection of the file and
rank masks. -/
def CoordinatePosition.to_bitmask (self : CoordinatePosition) : Nat :=
  self.x.toU64 &&& self.y.toU64

/-- Embeds the `Display` rendering of a `CoordinatePosition` as its two
characters. -/
def CoordinatePosition.displayChars (self : CoordinatePosition) : List Char :=
  [self.x.toChar, self.y.toChar]

/-- Embeds the `Display` rendering of a `CoordinatePosition` as a string
(used by `get_uci_move`). -/
def CoordinatePosition.displayString (self : CoordinatePosition) : String :=
  String.mk [self.x.toChar, self.y.toChar]

/-- Embeds `PieceEnum` from chess_pieces.rs. -/
inductive PieceEnum where
  | WhitePawn | WhiteKnight | WhiteBishop | WhiteRook | WhiteQueen | WhiteKing
  | BlackPawn | BlackKnight | BlackBishop | BlackRook | BlackQueen | BlackKing
deriving DecidableEq, Repr

/-- Embeds the `Display` rendering of `PieceEnum`: one letter, uppercase for
white pieces and lowercase for black pieces. -/
def PieceEnum.displayString : PieceEnum → String
  | .WhitePawn => "P"
  | .WhiteKnight => "N"
  | .WhiteBishop => "B"
  | .WhiteRook => "R"
  | .WhiteQueen => "Q"
  | .WhiteKing => "K"
  | .BlackPawn => "p"
  | .BlackKnight => "n"
  | .BlackBishop => "b"
  | .BlackRook => "r"
  | .BlackQueen => "q"
  | .BlackKing => "k"

/-- Embeds `CheckType` from moves/shared.rs. -/
inductive CheckType where
  | None | Check | Checkmate
deriving DecidableEq, Repr

/-- Embeds `CastleType` from moves/shared.rs. -/
inductive CastleType where
  | ShortCastle | LongCastle
deriving DecidableEq, Repr

/-- Embeds `StandardMove` from standard_move.rs.  The move generators in
pawn_moves.rs and temp_move.rs construct the record without a check
classification (an earlier revision of the struct); those constructions are
embedded with `check := CheckType.None`. -/
structure StandardMove where
  start_position : CoordinatePosition
  end_position : CoordinatePosition
  piece : PieceEnum
  en_passant_target : Option CoordinatePosition
  promotion : Option PieceEnum
  takes : Option (CoordinatePosition × PieceEnum)
  check : CheckType
deriving DecidableEq, Repr

/-- Embeds the `Move` tagged union from moves/shared.rs. -/
inductive Move where
  | StandardMove (m : StandardMove)
  | Castle (c : CastleType)
deriving DecidableEq, Repr

/-- Alias so the `CoordinateError` payload type stays visible inside the
`MoveError` declaration, where the constructor of the same name shadows it. -/
abbrev CoordinateErrorTy := CoordinateError

/-- Embeds `MoveError` from moves/shared.rs. -/
inductive MoveError where
  | PawnOnOneOrEight
  | CoordinateError (e : CoordinateErrorTy)
  | CapturePieceNotFound (p : CoordinatePosition)
  | InvalidPieceType (fn expected actual : String)
  | InvalidDirection (fn expected actual : String)
deriving DecidableEq, Repr

/-- Lifts a `CoordinateError` into a `MoveError` (the `#[from]` conversion
used by the `?` operator in the Rust source). -/
def MoveError.ofCoordinateError (e : CoordinateErrorTy) : MoveError :=
  .CoordinateError e

instance : MonadLift (Except CoordinateError) (Except MoveError) where
  monadLift
    | .ok a => .ok a
    | .error e => .error (.CoordinateError e)

/-- Embeds `BoardBitmasks` from board_bitmask.rs: twelve per-piece bitboards
plus the three aggregates (each `Bitmask<T>` wrapper holds one u64 `mask`). -/
structure BoardBitmasks where
  all_pieces : Nat
  white_pieces : Nat
  white_pawns : Nat
  white_knights : Nat
  white_bishops : Nat
  white_rooks : Nat
  white_queens : Nat
  white_kings : Nat
  black_pieces : Nat
  black_pawns : Nat
  black_knights : Nat
  black_bishops : Nat
  black_rooks : Nat
  black_queens : Nat
  black_kings : Nat
deriving DecidableEq, Repr

/-- Embeds `BoardBitmasks::get_piece_type_for_capture` from moves/shared.rs. -/
def BoardBitmasks.get_piece_type_for_capture (self : BoardBitmasks)
    (capture_position : CoordinatePosition) : Except MoveError PieceEnum :=
  if capture_position.to_bitmask &&& self.all_pieces = 0 then
    .error (.CapturePieceNotFound capture_position)
  else if capture_position.to_bitmask &&& self.white_pieces > 0 then
    if capture_position.to_bitmask &&& self.white_pawns > 0 then .ok .WhitePawn
    else if capture_position.to_bitmask &&& self.white_knights > 0 then .ok .WhiteKnight
    else if capture_position.to_bitmask &&& self.white_bishops > 0 then .ok .WhiteBishop
    else if capture_position.to_bitmask &&& self.white_rooks > 0 then .ok .WhiteRook
    else if capture_position.to_bitmask &&& self.white_queens > 0 then .ok .WhiteQueen
    else if capture_position.to_bitmask &&& self.white_kings > 0 then .ok .WhiteKing
    else .error (.CapturePieceNotFound capture_position)
  else
    if capture_position.to_bitmask &&& self.black_pawns > 0 then .ok .BlackPawn
    else if capture_position.to_bitmask &&& self.black_knights > 0 then .ok .BlackKnight
    else if capture_position.to_bitmask &&& self.black_bishops > 0 then .ok .BlackBishop
    else if capture_position.to_bitmask &&& self.black_rooks > 0 then .ok .BlackRook
    else if capture_position.to_bitmask &&& self.black_queens > 0 then .ok .BlackQueen
    else if capture_position.to_bitmask &&& self.black_kings > 0 then .ok .BlackKing
    else .error (.CapturePieceNotFound capture_position)

/-- Embeds `BoardBitmasks::piece_enum_to_bitmask` from moves/shared.rs. -/
def BoardBitmasks.piece_enum_to_bitmask (self : BoardBitmasks) : PieceEnum → Nat
  | .WhitePawn => self.white_pawns
  | .WhiteKnight => self.white_knights
  | .WhiteBishop => self.white_bishops
  | .WhiteRook => self.white_rooks
  | .WhiteQueen => self.white_queens
  | .WhiteKing => self.white_kings
  | .BlackPawn => self.black_pawns
  | .BlackKnight => self.black_knights
  | .BlackBishop => self.black_bishops
  | .BlackRook => self.black_rooks
  | .BlackQueen => self.black_queens
  | .BlackKing => self.black_kings

/-- Debug rendering of a direction (the Rust source formats directions with
`{:?}` into its error payloads). -/
def ChessDirection.debugName : ChessDirection → String
  | .Up => "Up"
  | .UpRight => "UpRight"
  | .Right => "Right"
  | .DownRight => "DownRight"
  | .Down => "Down"
  | .DownLeft => "DownLeft"
  | .Left => "Left"
  | .UpLeft => "UpLeft"
  | .KnightOne => "KnightOne"
  | .KnightTwo => "KnightTwo"
  | .KnightFour => "KnightFour"
  | .KnightFive => "KnightFive"
  | .KnightSeven => "KnightSeven"
  | .KnightEight => "KnightEight"
  | .KnightTen => "KnightTen"
  | .KnightEleven => "KnightEleven"

/-- Debug rendering of a piece class, as formatted by `{:?}` in error payloads. -/
def PieceEnum.debugName : PieceEnum → String
  | .WhitePawn => "WhitePawn"
  | .WhiteKnight => "WhiteKnight"
  | .WhiteBishop => "WhiteBishop"
  | .WhiteRook => "WhiteRook"
  | .WhiteQueen => "WhiteQueen"
  | .WhiteKing => "WhiteKing"
  | .BlackPawn => "BlackPawn"
  | .BlackKnight => "BlackKnight"
  | .BlackBishop => "BlackBishop"
  | .BlackRook => "BlackRook"
  | .BlackQueen => "BlackQueen"
  | .BlackKing => "BlackKing"

/-- Embeds `RookAttackMaps::calculate_unconstrained_rook_attack_maps` from
attack_maps.rs: the 7-fold fold of each orthogonal shift, unioned. -/
def calculate_unconstrained_rook_attack_maps (self : Nat) : Nat :=
  let up := (List.range 7).foldl (fun current _ => current ||| shift_move current .Up)
    (shift_move self .Up)
  let right := (List.range 7).foldl (fun current _ => current ||| shift_move current .Right)
    (shift_move self .Right)
  let down := (List.range 7).foldl (fun current _ => current ||| shift_move current .Down)
    (shift_move self .Down)
  let left := (List.range 7).foldl (fun current _ => current ||| shift_move current .Left)
    (shift_move self .Left)
  up ||| right ||| down ||| left

/-- Embeds `BishopAttackMaps::calculate_unconstrained_bishop_attack_maps` from
attack_maps.rs. -/
def calculate_unconstrained_bishop_attack_maps (self : Nat) : Nat :=
  let up_right := (List.range 7).foldl (fun current _ => current ||| shift_move current .UpRight)
    (shift_move self .UpRight)
  let down_right := (List.range 7).foldl (fun current _ => current ||| shift_move current .DownRight)
    (shift_move self .DownRight)
  let down_left := (List.range 7).foldl (fun current _ => current ||| shift_move current .DownLeft)
    (shift_move self .DownLeft)
  let up_left := (List.range 7).foldl (fun current _ => current ||| shift_move current .UpLeft)
    (shift_move self .UpLeft)
  up_right ||| down_right ||| down_left ||| up_left

/-- The `while next_position != 0` walk of `check_for_pin` from
pinned_to_king.rs, as a fuel recursion.  Shifting any 64-bit mask eight times
in a fixed king-step direction yields 0, so fuel 64 is never exhausted. -/
def check_for_pin_loop (fuel : Nat) (direction : ChessDirection)
    (attacking_pieces defending_pieces next_position pinned_piece_candidate : Nat) : Nat :=
  match fuel with
  | 0 => 0
  | fuel + 1 =>
    if next_position = 0 then 0
    else
      let pinned_piece_found := pinned_piece_candidate ≠ 0
      if ¬ pinned_piece_found then
        if next_position &&& defending_pieces ≠ 0 then
          check_for_pin_loop fuel direction attacking_pieces defending_pieces
            (shift_move next_position direction) next_position
        else if next_position &&& attacking_pieces ≠ 0 then 0
        else
          check_for_pin_loop fuel direction attacking_pieces defending_pieces
            (shift_move next_position direction) pinned_piece_candidate
      else
        if next_position &&& attacking_pieces ≠ 0 then pinned_piece_candidate
        else if next_position &&& defending_pieces ≠ 0 then 0
        else
          check_for_pin_loop fuel direction attacking_pieces defending_pieces
            (shift_move next_position direction) pinned_piece_candidate

/-- Embeds `check_for_pin` from pinned_to_king.rs: direction guard, then the
outward ray walk. -/
def check_for_pin (king_position : Nat) (direction : ChessDirection)
    (attacking_pieces defending_pieces : Nat) : Except MoveError Nat :=
  match direction with
  | .Up | .UpRight | .Right | .DownRight | .Down | .DownLeft | .Left | .UpLeft =>
    .ok (check_for_pin_loop 64 direction attacking_pieces defending_pieces
      (shift_move king_position direction) 0)
  | _ =>
    .error (.InvalidDirection "check_for_pin" "a cardinal or diagonal direction"
      direction.debugName)

/-- Embeds `BoardBitmasks::get_pieces_cardinally_pinned_to_king` from
pinned_to_king.rs. -/
def BoardBitmasks.get_pieces_cardinally_pinned_to_king (self : BoardBitmasks)
    (white : Bool) : Nat :=
  let king_bitmask := if white then self.white_kings else self.black_kings
  let off_rook_bitmask := if white then self.black_rooks else self.white_rooks
  let off_queen_bitmask := if white then self.black_queens else self.white_queens
  let def_piece_bitmask := if white then self.white_pieces else self.black_pieces
  let king_cardinal_attack_squares := calculate_unconstrained_rook_attack_maps king_bitmask
  let cardinal_attackers := off_rook_bitmask ||| off_queen_bitmask
  if king_cardinal_attack_squares &&& cardinal_attackers ≠ 0 then
    [ChessDirection.Up, .Right, .Down, .Left].foldl
      (fun output cardinal_direction =>
        match check_for_pin king_bitmask cardinal_direction cardinal_attackers
            def_piece_bitmask with
        | .ok piece => output ||| piece
        | .error _ => output)
      0
  else 0

/-- Embeds `BoardBitmasks::get_pieces_diagonally_pinned_to_king` from
pinned_to_king.rs. -/
def BoardBitmasks.get_pieces_diagonally_pinned_to_king (self : BoardBitmasks)
    (white : Bool) : Nat :=
  let king_bitmask := if white then self.white_kings else self.black_kings
  let off_bishop_bitmask := if white then self.black_bishops else self.white_bishops
  let off_queen_bitmask := if white then self.black_queens else self.white_queens
  let def_piece_bitmask := if white then self.white_pieces else self.black_pieces
  let king_diagonal_attack_squares := calculate_unconstrained_bishop_attack_maps king_bitmask
  let diagonal_attackers := off_bishop_bitmask ||| off_queen_bitmask
  if king_diagonal_attack_squares &&& diagonal_attackers ≠ 0 then
    [ChessDirection.UpRight, .DownRight, .DownLeft, .UpLeft].foldl
      (fun output diagonal_direction =>
        match check_for_pin king_bitmask diagonal_direction diagonal_attackers
            def_piece_bitmask with
        | .ok piece => output ||| piece
        | .error _ => output)
      0
  else 0

/-- Embeds `BoardBitmasks::get_pieces_pinned_to_king` from pinned_to_king.rs. -/
def BoardBitmasks.get_pieces_pinned_to_king (self : BoardBitmasks) (white : Bool) : Nat :=
  self.get_pieces_cardinally_pinned_to_king white
    ||| self.get_pieces_diagonally_pinned_to_king white

/-- Embeds `TempMove` from temp_move.rs. -/
structure TempMove where
  moves : Nat
  captures : Nat
deriving DecidableEq, Repr

/-- Isolates the lowest set bit of a nonzero mask — the value the Rust source
computes as `1 << mask.trailing_zeros()`. -/
def lowest_set_bit (v : Nat) : Nat := v &&& (v ^^^ (v - 1))

/-- The `while move_copy > 0` loop of `unpack_moves` from temp_move.rs as a
fuel recursion; each iteration clears one set bit, so fuel 64 covers any
64-bit mask. -/
def unpack_moves_bits (fuel : Nat) (packed_move : TempMove) (index : Nat)
    (undo_moves : Nat → Nat → Nat) (piece_type : PieceEnum)
    (game_board : BoardBitmasks) (move_copy : Nat) : Except MoveError (List Move) :=
  match fuel with
  | 0 => .ok []
  | fuel + 1 =>
    if move_copy > 0 then do
      let next_move_bitmask := lowest_set_bit move_copy
      let next_move_coord ← CoordinatePosition.from_bitmask next_move_bitmask
      let starting_pos_coord ←
        CoordinatePosition.from_bitmask (undo_moves next_move_bitmask index)
      let takes ←
        if next_move_bitmask &&& packed_move.captures > 0 then do
          let p ← game_board.get_piece_type_for_capture next_move_coord
          pure (some (next_move_coord, p))
        else
          pure none
      let next_move := Move.StandardMove {
        start_position := starting_pos_coord
        end_position := next_move_coord
        piece := piece_type
        en_passant_target := none
        promotion := none
        takes := takes
        check := .None }
      let rest ← unpack_moves_bits fuel packed_move index undo_moves piece_type
        game_board (move_copy &&& notU64 next_move_bitmask)
      .ok (next_move :: rest)
    else .ok []

/-- The enumerated outer loop of `unpack_moves` over the packed stack. -/
def unpack_moves_go (index : Nat) (packed_moves : List TempMove)
    (undo_moves : Nat → Nat → Nat) (piece_type : PieceEnum)
    (game_board : BoardBitmasks) : Except MoveError (List Move) :=
  match packed_moves with
  | [] => .ok []
  | packed_move :: rest => do
    let here ← unpack_moves_bits 64 packed_move index undo_moves piece_type
      game_board packed_move.moves
    let there ← unpack_moves_go (index + 1) rest undo_moves piece_type game_board
    .ok (here ++ there)

/-- Embeds `unpack_moves` from temp_move.rs. -/
def unpack_moves (packed_moves : List TempMove) (undo_moves : Nat → Nat → Nat)
    (piece_type : PieceEnum) (game_board : BoardBitmasks) :
    Except MoveError (List Move) :=
  unpack_moves_go 0 packed_moves undo_moves piece_type game_board

/-- The packing `loop` shared by straight_moves.rs and diagonal_moves.rs, as a
fuel recursion (a ray walk dies within eight shifts, so fuel 64 is ample).
The source reads the last pushed `TempMove`, breaks when
`previous.moves & previous.captures == 0`, and otherwise pushes the shift of
the full previous move mask. -/
def pack_moves_loop (fuel : Nat) (direction : ChessDirection)
    (own_pieces opponent_pieces : Nat) (packed_moves : List TempMove)
    (previous_move : TempMove) : List TempMove :=
  match fuel with
  | 0 => packed_moves
  | fuel + 1 =>
    if previous_move.moves &&& previous_move.captures = 0 then packed_moves
    else
      let valid_moves := shift_move previous_move.moves direction &&& notU64 own_pieces
      let captures := valid_moves &&& opponent_pieces
      pack_moves_loop fuel direction own_pieces opponent_pieces
        (packed_moves ++ [⟨valid_moves, captures⟩]) ⟨valid_moves, captures⟩

/-- Embeds `BoardBitmasks::calculate_cardinal_moves_for_direction` from
straight_moves.rs. -/
def BoardBitmasks.calculate_cardinal_moves_for_direction (self : BoardBitmasks)
    (piece_type : PieceEnum) (cardinal_direction : ChessDirection) :
    Except MoveError (List Move) := do
  let white ← match piece_type with
    | .WhiteRook | .WhiteQueen => pure true
    | .BlackRook | .BlackQueen => pure false
    | _ => Except.error (MoveError.InvalidPieceType
        "calculate_cardinal_moves_for_direction"
        "[WhiteRook, WhiteQueen, BlackRook, BlackQueen]" piece_type.debugName)
  let reverse_direction ← match cardinal_direction with
    | .Right => pure ChessDirection.Left
    | .Down => pure ChessDirection.Up
    | .Left => pure ChessDirection.Right
    | .Up => pure ChessDirection.Down
    | _ => Except.error (MoveError.InvalidDirection
        "calculate_cardinal_moves_for_direction" "[Up, Right, Down, Left]"
        cardinal_direction.debugName)
  let own_pieces := if white then self.white_pieces else self.black_pieces
  let opponent_pieces := if white then self.black_pieces else self.white_pieces
  let starting_position := self.piece_enum_to_bitmask piece_type
  let valid_moves := shift_move starting_position cardinal_direction &&& notU64 own_pieces
  let captures := valid_moves &&& opponent_pieces
  let packed_moves := pack_moves_loop 64 cardinal_direction own_pieces opponent_pieces
    [⟨valid_moves, captures⟩] ⟨valid_moves, captures⟩
  unpack_moves packed_moves
    (fun bitmask index =>
      (List.range index).foldl (fun current _ => shift_move current reverse_direction) bitmask)
    piece_type self

/-- Embeds `BoardBitmasks::calculate_diagonal_moves_for_direction` from
diagonal_moves.rs. -/
def BoardBitmasks.calculate_diagonal_moves_for_direction (self : BoardBitmasks)
    (piece_type : PieceEnum) (diagonal_direction : ChessDirection) :
    Except MoveError (List Move) := do
  let white ← match piece_type with
    | .WhiteBishop | .WhiteQueen => pure true
    | .BlackBishop | .BlackQueen => pure false
    | _ => Except.error (MoveError.InvalidPieceType
        "calculate_diagonal_moves_for_direction"
        "[WhiteBishop, WhiteQueen, BlackBishop, BlackQueen]" piece_type.debugName)
  let reverse_direction ← match diagonal_direction with
    | .UpRight => pure ChessDirection.DownLeft
    | .DownRight => pure ChessDirection.UpLeft
    | .DownLeft => pure ChessDirection.UpRight
    | .UpLeft => pure ChessDirection.DownRight
    | _ => Except.error (MoveError.InvalidDirection
        "calculate_diagonal_moves_for_direction"
        "[UpRight, DownRight, DownLeft, UpLeft]" diagonal_direction.debugName)
  let own_pieces := if white then self.white_pieces else self.black_pieces
  let opponent_pieces := if white then self.black_pieces else self.white_pieces
  let starting_position := self.piece_enum_to_bitmask piece_type
  let valid_moves := shift_move starting_position diagonal_direction &&& notU64 own_pieces
  let captures := valid_moves &&& opponent_pieces
  let packed_moves := pack_moves_loop 64 diagonal_direction own_pieces opponent_pieces
    [⟨valid_moves, captures⟩] ⟨valid_moves, captures⟩
  unpack_moves packed_moves
    (fun bitmask index =>
      (List.range index).foldl (fun current _ => shift_move current reverse_direction) bitmask)
    piece_type self

/-- Embeds `StandardMove::new` from standard_move.rs. -/
def StandardMove.new (start_position end_position : CoordinatePosition)
    (piece : PieceEnum) (en_passant_target : Option CoordinatePosition)
    (promotion : Option PieceEnum) (takes : Option (CoordinatePosition × PieceEnum))
    (check : CheckType) : StandardMove :=
  { start_position, end_position, piece, en_passant_target, promotion, takes, check }

/-- Embeds `create_simple_white_pawn_move` from pawn_moves.rs. -/
def create_simple_white_pawn_move (starting_position ending_position : Nat) :
    Except MoveError StandardMove := do
  let s ← CoordinatePosition.from_bitmask starting_position
  let e ← CoordinatePosition.from_bitmask ending_position
  .ok (StandardMove.new s e .WhitePawn none none none .None)

/-- Embeds `create_double_white_pawn_move` from pawn_moves.rs: the double push
carries `en_passant_target = shift(dest, Down)`, the leapt-over square. -/
def create_double_white_pawn_move (starting_position ending_position : Nat) :
    Except MoveError StandardMove := do
  let s ← CoordinatePosition.from_bitmask starting_position
  let e ← CoordinatePosition.from_bitmask ending_position
  let t ← CoordinatePosition.from_bitmask (shift_move ending_position .Down)
  .ok (StandardMove.new s e .WhitePawn (some t) none none .None)

/-- The bit-popping `while` loop of `calculate_white_pawn_moves_single_step`. -/
def white_pawn_single_step_loop (fuel : Nat) (valid_moves : Nat) :
    Except MoveError (List Move) :=
  match fuel with
  | 0 => .ok []
  | fuel + 1 =>
    if valid_moves ≠ 0 then do
      let next_move := lowest_set_bit valid_moves
      let starting_position := shift_move next_move .Down
      let mv ← create_simple_white_pawn_move starting_position next_move
      let rest ← white_pawn_single_step_loop fuel (valid_moves &&& notU64 next_move)
      .ok (Move.StandardMove mv :: rest)
    else .ok []

/-- Embeds `calculate_white_pawn_moves_single_step` from pawn_moves.rs. -/
def BoardBitmasks.calculate_white_pawn_moves_single_step (self : BoardBitmasks)
    (occupied : Nat) : Except MoveError (List Move) :=
  let ROWS_TWO_TO_SIX := notU64
    (YCoordinate.One.toU64 ||| YCoordinate.Seven.toU64 ||| YCoordinate.Eight.toU64)
  let valid_pawns := self.white_pawns &&& ROWS_TWO_TO_SIX
  let valid_moves := shift_move valid_pawns .Up &&& notU64 occupied
  white_pawn_single_step_loop 64 valid_moves

/-- The bit-popping `while` loop of `calculate_white_pawn_moves_double_step`. -/
def white_pawn_double_step_loop (fuel : Nat) (valid_moves : Nat) :
    Except MoveError (List Move) :=
  match fuel with
  | 0 => .ok []
  | fuel + 1 =>
    if valid_moves ≠ 0 then do
      let next_move := lowest_set_bit valid_moves
      let starting_position := shift_move (shift_move next_move .Down) .Down
      let mv ← create_double_white_pawn_move starting_position next_move
      let rest ← white_pawn_double_step_loop fuel (valid_moves &&& notU64 next_move)
      .ok (Move.StandardMove mv :: rest)
    else .ok []

/-- Embeds `calculate_white_pawn_moves_double_step` from pawn_moves.rs. -/
def BoardBitmasks.calculate_white_pawn_moves_double_step (self : BoardBitmasks)
    (occupied : Nat) : Except MoveError (List Move) :=
  let ROW_TWO := YCoordinate.Two.toU64
  let valid_pawns := self.white_pawns &&& ROW_TWO
  let valid_first_step := shift_move valid_pawns .Up &&& notU64 occupied
  let valid_moves := shift_move valid_first_step .Up &&& notU64 occupied
  white_pawn_double_step_loop 64 valid_moves

/-- The bit-popping `while` loop of `calculate_white_pawn_moves_capture_left`. -/
def white_pawn_capture_left_loop (fuel : Nat) (game_board : BoardBitmasks)
    (valid_captures : Nat) : Except MoveError (List Move) :=
  match fuel with
  | 0 => .ok []
  | fuel + 1 =>
    if valid_captures ≠ 0 then do
      let next_move := lowest_set_bit valid_captures
      let starting_position := shift_move next_move .DownRight
      let coord_next_move ← CoordinatePosition.from_bitmask next_move
      let coord_start ← CoordinatePosition.from_bitmask starting_position
      let captured ← game_board.get_piece_type_for_capture coord_next_move
      let mv : StandardMove := {
        start_position := coord_start
        end_position := coord_next_move
        piece := .WhitePawn
        en_passant_target := none
        promotion := none
        takes := some (coord_next_move, captured)
        check := .None }
      let rest ← white_pawn_capture_left_loop fuel game_board
        (valid_captures &&& notU64 next_move)
      .ok (Move.StandardMove mv :: rest)
    else .ok []

/-- Embeds `calculate_white_pawn_moves_capture_left` from pawn_moves.rs. -/
def BoardBitmasks.calculate_white_pawn_moves_capture_left (self : BoardBitmasks) :
    Except MoveError (List Move) :=
  let VALID_SQUARES_NOT_IN_COLUMN_A := notU64
    (YCoordinate.One.toU64 ||| YCoordinate.Seven.toU64 ||| YCoordinate.Eight.toU64
      ||| XCoordinate.A.toU64)
  let valid_pawns := self.white_pawns &&& VALID_SQUARES_NOT_IN_COLUMN_A
  let valid_captures := shift_move valid_pawns .UpLeft &&& self.black_pieces
  white_pawn_capture_left_loop 64 self valid_captures

/-- The bit-popping `while` loop of `calculate_white_pawn_moves_capture_right`. -/
def white_pawn_capture_right_loop (fuel : Nat) (game_board : BoardBitmasks)
    (valid_captures : Nat) : Except MoveError (List Move) :=
  match fuel with
  | 0 => .ok []
  | fuel + 1 =>
    if valid_captures ≠ 0 then do
      let next_move := lowest_set_bit valid_captures
      let starting_position := shift_move next_move .DownLeft
      let coord_next_move ← CoordinatePosition.from_bitmask next_move
      let coord_start ← CoordinatePosition.from_bitmask starting_position
      let captured ← game_board.get_piece_type_for_capture coord_next_move
      let mv : StandardMove := {
        start_position := coord_start
        end_position := coord_next_move
        piece := .WhitePawn
        en_passant_target := none
        promotion := none
        takes := some (coord_next_move, captured)
        check := .None }
      let rest ← white_pawn_capture_right_loop fuel game_board
        (valid_captures &&& notU64 next_move)
      .ok (Move.StandardMove mv :: rest)
    else .ok []

/-- Embeds `calculate_white_pawn_moves_capture_right` from pawn_moves.rs. -/
def BoardBitmasks.calculate_white_pawn_moves_capture_right (self : BoardBitmasks) :
    Except MoveError (List Move) :=
  let VALID_SQUARES_NOT_IN_COLUMN_H := notU64
    (YCoordinate.One.toU64 ||| YCoordinate.Seven.toU64 ||| YCoordinate.Eight.toU64
      ||| XCoordinate.H.toU64)
  let valid_pawns := self.white_pawns &&& VALID_SQUARES_NOT_IN_COLUMN_H
  let valid_captures := shift_move valid_pawns .UpRight &&& self.black_pieces
  white_pawn_capture_right_loop 64 self valid_captures

/-- The bit-popping `while` loop of `calculate_white_pawn_moves_en_passant`. -/
def white_pawn_en_passant_loop (fuel : Nat) (target_mask : Nat) (valid_pawns : Nat) :
    Except MoveError (List Move) :=
  match fuel with
  | 0 => .ok []
  | fuel + 1 =>
    if valid_pawns ≠ 0 then do
      let starting_position := lowest_set_bit valid_pawns
      let coord_start ← CoordinatePosition.from_bitmask starting_position
      let coord_end ← CoordinatePosition.from_bitmask target_mask
      let coord_taken ← CoordinatePosition.from_bitmask (shift_move target_mask .Down)
      let mv : StandardMove := {
        start_position := coord_start
        end_position := coord_end
        piece := .WhitePawn
        en_passant_target := none
        promotion := none
        takes := some (coord_taken, .BlackPawn)
        check := .None }
      let rest ← white_pawn_en_passant_loop fuel target_mask
        (valid_pawns &&& notU64 starting_position)
      .ok (Move.StandardMove mv :: rest)
    else .ok []

/-- Embeds `calculate_white_pawn_moves_en_passant` from pawn_moves.rs: the
candidate origins are the two down-shifts of the target, intersected with
`ROW_SIX`. -/
def BoardBitmasks.calculate_white_pawn_moves_en_passant (self : BoardBitmasks)
    (en_passant_target : Option CoordinatePosition) : Except MoveError (List Move) :=
  let ROW_SIX := YCoordinate.Six.toU64
  match en_passant_target with
  | none => .ok []
  | some target =>
    let target_mask := target.to_bitmask
    let valid_capture_positions :=
      (shift_move target_mask .DownLeft ||| shift_move target_mask .DownRight) &&& ROW_SIX
    let valid_pawns := self.white_pawns &&& valid_capture_positions
    white_pawn_en_passant_loop 64 target_mask valid_pawns

/-- The four promotion records emitted per destination bit by
`calculate_white_pawn_promotions`. -/
def white_pawn_promotion_records (coord_start coord_next : CoordinatePosition)
    (takes : Option (CoordinatePosition × PieceEnum)) : List Move :=
  [PieceEnum.WhiteKnight, .WhiteBishop, .WhiteRook, .WhiteQueen].map
    (fun piece => Move.StandardMove {
      start_position := coord_start
      end_position := coord_next
      piece := .WhitePawn
      en_passant_target := none
      promotion := some piece
      takes := takes
      check := .None })

/-- The forward-push `while` loop of `calculate_white_pawn_promotions`. -/
def white_pawn_promotion_forward_loop (fuel : Nat) (valid_move_forward : Nat) :
    Except MoveError (List Move) :=
  match fuel with
  | 0 => .ok []
  | fuel + 1 =>
    if valid_move_forward ≠ 0 then do
      let next_move := lowest_set_bit valid_move_forward
      let starting_position := shift_move next_move .Down
      let coord_next_move ← CoordinatePosition.from_bitmask next_move
      let coord_starting_pos ← CoordinatePosition.from_bitmask starting_position
      let rest ← white_pawn_promotion_forward_loop fuel
        (valid_move_forward &&& notU64 next_move)
      .ok (white_pawn_promotion_records coord_starting_pos coord_next_move none ++ rest)
    else .ok []

/-- The capture-left `while` loop of `calculate_white_pawn_promotions`. -/
def white_pawn_promotion_capture_left_loop (fuel : Nat) (game_board : BoardBitmasks)
    (valid_capture_left : Nat) : Except MoveError (List Move) :=
  match fuel with
  | 0 => .ok []
  | fuel + 1 =>
    if valid_capture_left ≠ 0 then do
      let next_move := lowest_set_bit valid_capture_left
      let starting_position := shift_move next_move .DownRight
      let coord_next_move ← CoordinatePosition.from_bitmask next_move
      let coord_starting_pos ← CoordinatePosition.from_bitmask starting_position
      let captured_piece ← game_board.get_piece_type_for_capture coord_next_move
      let rest ← white_pawn_promotion_capture_left_loop fuel game_board
        (valid_capture_left &&& notU64 next_move)
      .ok (white_pawn_promotion_records coord_starting_pos coord_next_move
        (some (coord_next_move, captured_piece)) ++ rest)
    else .ok []

/-- The capture-right `while` loop of `calculate_white_pawn_promotions`. -/
def white_pawn_promotion_capture_right_loop (fuel : Nat) (game_board : BoardBitmasks)
    (valid_capture_right : Nat) : Except MoveError (List Move) :=
  match fuel with
  | 0 => .ok []
  | fuel + 1 =>
    if valid_capture_right ≠ 0 then do
      let next_move := lowest_set_bit valid_capture_right
      let starting_position := shift_move next_move .DownLeft
      let coord_next_move ← CoordinatePosition.from_bitmask next_move
      let coord_starting_pos ← CoordinatePosition.from_bitmask starting_position
      let captured_piece ← game_board.get_piece_type_for_capture coord_next_move
      let rest ← white_pawn_promotion_capture_right_loop fuel game_board
        (valid_capture_right &&& notU64 next_move)
      .ok (white_pawn_promotion_records coord_starting_pos coord_next_move
        (some (coord_next_move, captured_piece)) ++ rest)
    else .ok []

/-- Embeds `calculate_white_pawn_promotions` from pawn_moves.rs. -/
def BoardBitmasks.calculate_white_pawn_promotions (self : BoardBitmasks)
    (occupied : Nat) : Except MoveError (List Move) := do
  let ROW_SEVEN := YCoordinate.Seven.toU64
  let ROW_SEVEN_NOT_COLUMN_A := YCoordinate.Seven.toU64 &&& notU64 XCoordinate.A.toU64
  let ROW_SEVEN_NOT_COLUMN_H := YCoordinate.Seven.toU64 &&& notU64 XCoordinate.H.toU64
  let valid_pawns := self.white_pawns &&& ROW_SEVEN
  if valid_pawns = 0 then
    .ok []
  else do
    let valid_move_forward := shift_move valid_pawns .Up &&& notU64 occupied
    let forward ← white_pawn_promotion_forward_loop 64 valid_move_forward
    let valid_capture_left :=
      shift_move (valid_pawns &&& ROW_SEVEN_NOT_COLUMN_A) .UpLeft &&& self.black_pieces
    let lefts ← white_pawn_promotion_capture_left_loop 64 self valid_capture_left
    let valid_capture_right :=
      shift_move (valid_pawns &&& ROW_SEVEN_NOT_COLUMN_H) .UpRight &&& self.black_pieces
    let rights ← white_pawn_promotion_capture_right_loop 64 self valid_capture_right
    .ok (forward ++ lefts ++ rights)

/-- Embeds `calculate_white_pawn_moves` from pawn_moves.rs: the six
sub-generators concatenated in source order. -/
def BoardBitmasks.calculate_white_pawn_moves (self : BoardBitmasks)
    (en_passant : Option CoordinatePosition) : Except MoveError (List Move) := do
  let occupied := self.all_pieces
  let single_step_moves ← self.calculate_white_pawn_moves_single_step occupied
  let double_step_moves ← self.calculate_white_pawn_moves_double_step occupied
  let capture_left_moves ← self.calculate_white_pawn_moves_capture_left
  let capture_right_moves ← self.calculate_white_pawn_moves_capture_right
  let en_passant_moves ← self.calculate_white_pawn_moves_en_passant en_passant
  let promotion_moves ← self.calculate_white_pawn_promotions occupied
  .ok (single_step_moves ++ double_step_moves ++ capture_left_moves
    ++ capture_right_moves ++ en_passant_moves ++ promotion_moves)

/-- Embeds `StandardMove::get_uci_move` from standard_move.rs. -/
def StandardMove.get_uci_move (self : StandardMove) : String :=
  let x := match self.takes with
    | some _ => "x"
    | none => ""
  let promotion := match self.promotion with
    | some piece => "=" ++ piece.displayString
    | none => ""
  let check := match self.check with
    | .None => ""
    | .Check => "+"
    | .Checkmate => "#"
  self.start_position.displayString ++ x ++ self.end_position.displayString
    ++ promotion ++ check

/-- Rendering described by the specification, written from its words:
from square, an "x" iff `takes` is present, to square, "=P" iff a promotion
is present with P the promotion piece's one-letter rendering, and a trailing
"+" for Check, "#" for Checkmate, nothing for None. -/
def uci_grammar_rendering (m : StandardMove) : String :=
  m.start_position.displayString
    ++ (if m.takes.isSome then "x" else "")
    ++ m.end_position.displayString
    ++ (match m.promotion with
      | some p => "=" ++ p.displayString
      | none => "")
    ++ (match m.check with
      | .None => ""
      | .Check => "+"
      | .Checkmate => "#")

/-- The big-endian byte decomposition of a u64 (`u64::to_be_bytes`). -/
def to_be_bytes (x : Nat) : List Nat :=
  [(x >>> 56) &&& 0xFF, (x >>> 48) &&& 0xFF, (x >>> 40) &&& 0xFF, (x >>> 32) &&& 0xFF,
    (x >>> 24) &&& 0xFF, (x >>> 16) &&& 0xFF, (x >>> 8) &&& 0xFF, x &&& 0xFF]

/-- Reassembly of a u64 from big-endian bytes (`u64::from_be_bytes`). -/
def from_be_bytes (bytes : List Nat) : Nat :=
  bytes.foldl (fun acc b => acc * 256 + b) 0

/-- Embeds the nested `invert_byte` helper of `flip_horizontal` from
chess_flip.rs: reverses the eight bits of one byte. -/
def invert_byte (byte : Nat) : Nat :=
  if byte > 0 then
    (List.range 8).foldl
      (fun new_byte bit_no =>
        let bit := byte &&& (1 <<< (7 - bit_no))
        if bit > 0 then new_byte ||| (1 <<< bit_no) else new_byte)
      0
  else 0

/-- Embeds `ChessFlip::flip_horizontal` for u64 from chess_flip.rs. -/
def ChessFlip.flip_horizontal (x : Nat) : Nat :=
  from_be_bytes ((to_be_bytes x).map invert_byte)

/-- Embeds `ChessFlip::flip_vertical` for u64 from chess_flip.rs
(`u64::swap_bytes` reverses the byte order). -/
def ChessFlip.flip_vertical (x : Nat) : Nat :=
  from_be_bytes (to_be_bytes x).reverse

/-- Embeds `ChessFlip::flip` for u64 from chess_flip.rs. -/
def ChessFlip.flip (x : Nat) : Nat :=
  ChessFlip.flip_vertical (ChessFlip.flip_horizontal x)

/-- Number of set bits in one byte. -/
def popByte (byte : Nat) : Nat :=
  (List.range 8).countP (fun i => byte.testBit i)

/-- Population count of a u64 (`u64::count_ones`), taken byte by byte. -/
def popCount64 (x : Nat) : Nat :=
  ((to_be_bytes x).map popByte).sum

/-- Square masks used by the concrete test positions. -/
def sqMask (x : XCoordinate) (y : YCoordinate) : Nat :=
  x.toU64 &&& y.toU64

/-- A board holding only a white rook on a1 (C4 failing input). -/
def rookA1Board : BoardBitmasks :=
  { all_pieces := sqMask .A .One
    white_pieces := sqMask .A .One
    white_pawns := 0, white_knights := 0, white_bishops := 0
    white_rooks := sqMask .A .One
    white_queens := 0, white_kings := 0
    black_pieces := 0, black_pawns := 0, black_knights := 0, black_bishops := 0
    black_rooks := 0, black_queens := 0, black_kings := 0 }

/-- A board holding a white rook on a1 and a black pawn on a3 (C1 failing input). -/
def rookA1PawnA3Board : BoardBitmasks :=
  { all_pieces := sqMask .A .One ||| sqMask .A .Three
    white_pieces := sqMask .A .One
    white_pawns := 0, white_knights := 0, white_bishops := 0
    white_rooks := sqMask .A .One
    white_queens := 0, white_kings := 0
    black_pieces := sqMask .A .Three
    black_pawns := sqMask .A .Three
    black_knights := 0, black_bishops := 0
    black_rooks := 0, black_queens := 0, black_kings := 0 }

/-- A board with white king a1, white pawn a2, black knight a3 and black rook
a8: the knight blocks the rook's line, so no pin exists (C2 failing input). -/
def knightBlockBoard : BoardBitmasks :=
  { all_pieces := sqMask .A .One ||| sqMask .A .Two ||| sqMask .A .Three ||| sqMask .A .Eight
    white_pieces := sqMask .A .One ||| sqMask .A .Two
    white_pawns := sqMask .A .Two
    white_knights := 0, white_bishops := 0, white_rooks := 0, white_queens := 0
    white_kings := sqMask .A .One
    black_pieces := sqMask .A .Three ||| sqMask .A .Eight
    black_pawns := 0
    black_knights := sqMask .A .Three
    black_bishops := 0
    black_rooks := sqMask .A .Eight
    black_queens := 0, black_kings := 0 }

/-- A board with a white pawn on e5 and a black pawn on d5, the position of
the specification's en-passant scenario (C3 failing input). -/
def enPassantBoard : BoardBitmasks :=
  { all_pieces := sqMask .E .Five ||| sqMask .D .Five
    white_pieces := sqMask .E .Five
    white_pawns := sqMask .E .Five
    white_knights := 0, white_bishops := 0, white_rooks := 0, white_queens := 0
    white_kings := 0
    black_pieces := sqMask .D .Five
    black_pawns := sqMask .D .Five
    black_knights := 0, black_bishops := 0
    black_rooks := 0, black_queens := 0, black_kings := 0 }



/-! Sanity checks mirroring the Rust unit tests of chess_move.rs. -/

theorem shift_move_unit_test_up : shift_move (sqMask .A .Two) .Up = sqMask .A .Three := by
  decide

theorem shift_move_unit_test_left : shift_move (sqMask .B .Two) .Left = sqMask .A .Two := by
  decide

theorem shift_move_unit_test_knight_one :
    shift_move (sqMask .D .Four) .KnightOne = sqMask .E .Six := by
  decide

/-! Bitwise helper lemmas for the direction laws. -/

theorem sub64_intro {a b : Nat} (h : ∀ i, a.testBit i = true → b.testBit i = true) :
    a &&& b = a := by
  apply Nat.eq_of_testBit_eq
  intro i
  rw [Nat.testBit_and]
  cases hb : a.testBit i
  · simp
  · simp [h i hb]

theorem land_elim {a b : Nat} {i : Nat} (h : (a &&& b).testBit i = true) :
    a.testBit i = true := by
  rw [Nat.testBit_and, Bool.and_eq_true] at h
  exact h.1

theorem up_elim {y i : Nat} (h : (shift_move_up y).testBit i = true) :
    8 ≤ i ∧ i < 64 ∧ y.testBit (i - 8) = true := by
  simp only [shift_move_up, u64size, Nat.testBit_mod_two_pow, Nat.testBit_shiftLeft,
    Nat.testBit_and, Bool.and_eq_true, decide_eq_true_eq] at h
  exact ⟨h.2.1, h.1, h.2.2.1⟩

theorem left_elim {y i : Nat} (h : (shift_move_left y).testBit i = true) :
    1 ≤ i ∧ i < 64 ∧ y.testBit (i - 1) = true := by
  simp only [shift_move_left, u64size, Nat.testBit_mod_two_pow, Nat.testBit_shiftLeft,
    Nat.testBit_and, Bool.and_eq_true, decide_eq_true_eq] at h
  exact ⟨h.2.1, h.1, h.2.2.1⟩

theorem down_elim {y i : Nat} (h : (shift_move_down y).testBit i = true) :
    y.testBit (8 + i) = true := by
  simp only [shift_move_down, Nat.testBit_shiftRight, Nat.testBit_and,
    Bool.and_eq_true] at h
  exact h.1

theorem right_elim {y i : Nat} (h : (shift_move_right y).testBit i = true) :
    y.testBit (1 + i) = true := by
  simp only [shift_move_right, Nat.testBit_shiftRight, Nat.testBit_and,
    Bool.and_eq_true] at h
  exact h.1

theorem smUp (x : Nat) : shift_move x .Up = shift_move_up x := rfl

theorem smDown (x : Nat) : shift_move x .Down = shift_move_down x := rfl

theorem smLeft (x : Nat) : shift_move x .Left = shift_move_left x := rfl

theorem smRight (x : Nat) : shift_move x .Right = shift_move_right x := rfl

theorem smUpRight (x : Nat) : shift_move x .UpRight
    = shift_move_right (shift_move_up (x &&& get_valid_space .UpRight)) := rfl

theorem smDownRight (x : Nat) : shift_move x .DownRight
    = shift_move_right (shift_move_down (x &&& get_valid_space .DownRight)) := rfl

theorem smDownLeft (x : Nat) : shift_move x .DownLeft
    = shift_move_left (shift_move_down (x &&& get_valid_space .DownLeft)) := rfl

theorem smUpLeft (x : Nat) : shift_move x .UpLeft
    = shift_move_left (shift_move_up (x &&& get_valid_space .UpLeft)) := rfl

theorem smKnightOne (x : Nat) : shift_move x .KnightOne
    = shift_move_right (shift_move_up (shift_move_up (x &&& get_valid_space .KnightOne))) := rfl

theorem smKnightTwo (x : Nat) : shift_move x .KnightTwo
    = shift_move_right (shift_move_right (shift_move_up (x &&& get_valid_space .KnightTwo))) := rfl

theorem smKnightFour (x : Nat) : shift_move x .KnightFour
    = shift_move_right (shift_move_right (shift_move_down (x &&& get_valid_space .KnightFour))) := rfl

theorem smKnightFive (x : Nat) : shift_move x .KnightFive
    = shift_move_right (shift_move_down (shift_move_down (x &&& get_valid_space .KnightFive))) := rfl

theorem smKnightSeven (x : Nat) : shift_move x .KnightSeven
    = shift_move_left (shift_move_down (shift_move_down (x &&& get_valid_space .KnightSeven))) := rfl

theorem smKnightEight (x : Nat) : shift_move x .KnightEight
    = shift_move_left (shift_move_left (shift_move_down (x &&& get_valid_space .KnightEight))) := rfl

theorem smKnightTen (x : Nat) : shift_move x .KnightTen
    = shift_move_left (shift_move_left (shift_move_up (x &&& get_valid_space .KnightTen))) := rfl

theorem smKnightEleven (x : Nat) : shift_move x .KnightEleven
    = shift_move_left (shift_move_up (shift_move_up (x &&& get_valid_space .KnightEleven))) := rfl

/-- C5: for every mask and each of the 16 directions, shifting and then
shifting back with the opposite direction is a bitwise subset of the
original mask. -/
theorem claim_C5_shift_roundtrip_subset (m : Nat) (d : ChessDirection) :
    shift_move (shift_move m d) (oppositeDirection d) &&& m
      = shift_move (shift_move m d) (oppositeDirection d) := by
  apply sub64_intro
  intro i h
  cases d
  case Up =>
    simp only [oppositeDirection, smUp, smDown] at h
    have h1 := down_elim h
    obtain ⟨-, -, h2⟩ := up_elim h1
    have e : 8 + i - 8 = i := by omega
    rwa [e] at h2
  case Down =>
    simp only [oppositeDirection, smUp, smDown] at h
    obtain ⟨h1, -, h2⟩ := up_elim h
    have h3 := down_elim h2
    have e : 8 + (i - 8) = i := by omega
    rwa [e] at h3
  case Left =>
    simp only [oppositeDirection, smLeft, smRight] at h
    have h1 := right_elim h
    obtain ⟨-, -, h2⟩ := left_elim h1
    have e : 1 + i - 1 = i := by omega
    rwa [e] at h2
  case Right =>
    simp only [oppositeDirection, smLeft, smRight] at h
    obtain ⟨h1, -, h2⟩ := left_elim h
    have h3 := right_elim h2
    have e : 1 + (i - 1) = i := by omega
    rwa [e] at h3
  case UpRight =>
    simp only [oppositeDirection, smUpRight, smDownLeft] at h
    obtain ⟨h1, -, h2⟩ := left_elim h
    have h3 := land_elim (down_elim h2)
    have h4 := right_elim h3
    obtain ⟨h5, -, h6⟩ := up_elim h4
    have h7 := land_elim h6
    have e : 1 + (8 + (i - 1)) - 8 = i := by omega
    rwa [e] at h7
  case DownLeft =>
    simp only [oppositeDirection, smUpRight, smDownLeft] at h
    have h1 := right_elim h
    obtain ⟨h2, -, h3⟩ := up_elim h1
    have h4 := land_elim h3
    obtain ⟨h5, -, h6⟩ := left_elim h4
    have h7 := land_elim (down_elim h6)
    have e : 8 + (1 + i - 8 - 1) = i := by omega
    rwa [e] at h7
  case UpLeft =>
    simp only [oppositeDirection, smUpLeft, smDownRight] at h
    have h1 := right_elim h
    have h2 := land_elim (down_elim h1)
    obtain ⟨h3, -, h4⟩ := left_elim h2
    obtain ⟨h5, -, h6⟩ := up_elim h4
    have h7 := land_elim h6
    have e : 8 + (1 + i) - 1 - 8 = i := by omega
    rwa [e] at h7
  case DownRight =>
    simp only [oppositeDirection, smUpLeft, smDownRight] at h
    obtain ⟨h1, -, h2⟩ := left_elim h
    obtain ⟨h3, -, h4⟩ := up_elim h2
    have h5 := land_elim h4
    have h6 := right_elim h5
    have h7 := land_elim (down_elim h6)
    have e : 8 + (1 + (i - 1 - 8)) = i := by omega
    rwa [e] at h7
  case KnightOne =>
    simp only [oppositeDirection, smKnightOne, smKnightSeven] at h
    obtain ⟨h1, -, h2⟩ := left_elim h
    have h3 := down_elim h2
    have h4 := land_elim (down_elim h3)
    have h5 := right_elim h4
    obtain ⟨h6, -, h7⟩ := up_elim h5
    obtain ⟨h8, -, h9⟩ := up_elim h7
    have h10 := land_elim h9
    have e : 1 + (8 + (8 + (i - 1))) - 8 - 8 = i := by omega
    rwa [e] at h10
  case KnightSeven =>
    simp only [oppositeDirection, smKnightOne, smKnightSeven] at h
    have h1 := right_elim h
    obtain ⟨h2, -, h3⟩ := up_elim h1
    obtain ⟨h4, -, h5⟩ := up_elim h3
    have h6 := land_elim h5
    obtain ⟨h7, -, h8⟩ := left_elim h6
    have h9 := down_elim h8
    have h10 := land_elim (down_elim h9)
    have e : 8 + (8 + (1 + i - 8 - 8 - 1)) = i := by omega
    rwa [e] at h10
  case KnightTwo =>
    simp only [oppositeDirection, smKnightTwo, smKnightEight] at h
    obtain ⟨h1, -, h2⟩ := left_elim h
    obtain ⟨h3, -, h4⟩ := left_elim h2
    have h5 := land_elim (down_elim h4)
    have h6 := right_elim h5
    have h7 := right_elim h6
    obtain ⟨h8, -, h9⟩ := up_elim h7
    have h10 := land_elim h9
    have e : 1 + (1 + (8 + (i - 1 - 1))) - 8 = i := by omega
    rwa [e] at h10
  case KnightEight =>
    simp only [oppositeDirection, smKnightTwo, smKnightEight] at h
    have h1 := right_elim h
    have h2 := right_elim h1
    obtain ⟨h3, -, h4⟩ := up_elim h2
    have h5 := land_elim h4
    obtain ⟨h6, -, h7⟩ := left_elim h5
    obtain ⟨h8, -, h9⟩ := left_elim h7
    have h10 := land_elim (down_elim h9)
    have e : 8 + (1 + (1 + i) - 8 - 1 - 1) = i := by omega
    rwa [e] at h10
  case KnightFour =>
    simp only [oppositeDirection, smKnightFour, smKnightTen] at h
    obtain ⟨h1, -, h2⟩ := left_elim h
    obtain ⟨h3, -, h4⟩ := left_elim h2
    obtain ⟨h5, -, h6⟩ := up_elim h4
    have h7 := land_elim h6
    have h8 := right_elim h7
    have h9 := right_elim h8
    have h10 := land_elim (down_elim h9)
    have e : 8 + (1 + (1 + (i - 1 - 1 - 8))) = i := by omega
    rwa [e] at h10
  case KnightTen =>
    simp only [oppositeDirection, smKnightFour, smKnightTen] at h
    have h1 := right_elim h
    have h2 := right_elim h1
    have h3 := land_elim (down_elim h2)
    obtain ⟨h4, -, h5⟩ := left_elim h3
    obtain ⟨h6, -, h7⟩ := left_elim h5
    obtain ⟨h8, -, h9⟩ := up_elim h7
    have h10 := land_elim h9
    have e : 8 + (1 + (1 + i)) - 1 - 1 - 8 = i := by omega
    rwa [e] at h10
  case KnightFive =>
    simp only [oppositeDirection, smKnightFive, smKnightEleven] at h
    obtain ⟨h1, -, h2⟩ := left_elim h
    obtain ⟨h3, -, h4⟩ := up_elim h2
    obtain ⟨h5, -, h6⟩ := up_elim h4
    have h7 := land_elim h6
    have h8 := right_elim h7
    have h9 := down_elim h8
    have h10 := land_elim (down_elim h9)
    have e : 8 + (8 + (1 + (i - 1 - 8 - 8))) = i := by omega
    rwa [e] at h10
  case KnightEleven =>
    simp only [oppositeDirection, smKnightFive, smKnightEleven] at h
    have h1 := right_elim h
    have h2 := down_elim h1
    have h3 := land_elim (down_elim h2)
    obtain ⟨h4, -, h5⟩ := left_elim h3
    obtain ⟨h6, -, h7⟩ := up_elim h5
    obtain ⟨h8, -, h9⟩ := up_elim h7
    have h10 := land_elim h9
    have e : 8 + (8 + (1 + i)) - 1 - 8 - 8 = i := by omega
    rwa [e] at h10

/-! Boundedness of the shift primitive and of the pin walk. -/

theorem get_valid_space_lt (d : ChessDirection) : get_valid_space d < u64size := by
  cases d <;> decide

theorem shift_move_up_lt (x : Nat) : shift_move_up x < u64size :=
  Nat.mod_lt _ (by decide)

theorem shift_move_left_lt (x : Nat) : shift_move_left x < u64size :=
  Nat.mod_lt _ (by decide)

theorem shift_move_down_lt (x : Nat) : shift_move_down x < u64size := by
  have h1 : x &&& get_valid_space .Down < u64size :=
    Nat.and_lt_two_pow x (get_valid_space_lt .Down)
  calc shift_move_down x ≤ x &&& get_valid_space .Down := by
        rw [shift_move_down, Nat.shiftRight_eq_div_pow]
        exact Nat.div_le_self _ _
    _ < u64size := h1

theorem shift_move_right_lt (x : Nat) : shift_move_right x < u64size := by
  have h1 : x &&& get_valid_space .Right < u64size :=
    Nat.and_lt_two_pow x (get_valid_space_lt .Right)
  calc shift_move_right x ≤ x &&& get_valid_space .Right := by
        rw [shift_move_right, Nat.shiftRight_eq_div_pow]
        exact Nat.div_le_self _ _
    _ < u64size := h1

theorem shift_move_lt (x : Nat) (d : ChessDirection) : shift_move x d < u64size := by
  cases d
  case Up => exact shift_move_up_lt _
  case Down => exact shift_move_down_lt _
  case Left => exact shift_move_left_lt _
  case Right => exact shift_move_right_lt _
  case UpRight => exact shift_move_right_lt _
  case DownRight => exact shift_move_right_lt _
  case DownLeft => exact shift_move_left_lt _
  case UpLeft => exact shift_move_left_lt _
  case KnightOne => exact shift_move_right_lt _
  case KnightTwo => exact shift_move_right_lt _
  case KnightFour => exact shift_move_right_lt _
  case KnightFive => exact shift_move_right_lt _
  case KnightSeven => exact shift_move_left_lt _
  case KnightEight => exact shift_move_left_lt _
  case KnightTen => exact shift_move_left_lt _
  case KnightEleven => exact shift_move_left_lt _

theorem check_for_pin_loop_lt (fuel : Nat) (d : ChessDirection)
    (att dfd np cand : Nat) (hn : np < u64size) (hc : cand < u64size) :
    check_for_pin_loop fuel d att dfd np cand < u64size := by
  induction fuel generalizing np cand with
  | zero => simp only [check_for_pin_loop]; decide
  | succ fuel ih =>
    unfold check_for_pin_loop
    dsimp only
    split_ifs <;> first
      | decide
      | exact hc
      | exact ih _ _ (shift_move_lt _ _) hn
      | exact ih _ _ (shift_move_lt _ _) hc

theorem check_for_pin_ok_bound {k a f v : Nat} {d : ChessDirection}
    (h : check_for_pin k d a f = .ok v) : v < u64size := by
  cases d <;> simp only [check_for_pin] at h <;>
    first
      | (injection h with h; exact h ▸ check_for_pin_loop_lt _ _ _ _ _ _
          (shift_move_lt _ _) (by decide))
      | cases h

theorem fold_pin_lt (l : List ChessDirection) (k a f out : Nat)
    (h : out < u64size) :
    (l.foldl (fun output d =>
      match check_for_pin k d a f with
      | .ok piece => output ||| piece
      | .error _ => output) out) < u64size := by
  induction l generalizing out with
  | nil => exact h
  | cons d rest ih =>
    simp only [List.foldl]
    apply ih
    cases hc : check_for_pin k d a f with
    | ok piece => exact Nat.or_lt_two_pow h (check_for_pin_ok_bound hc)
    | error e => exact h

theorem get_pieces_cardinally_pinned_lt (b : BoardBitmasks) (w : Bool) :
    b.get_pieces_cardinally_pinned_to_king w < u64size := by
  unfold BoardBitmasks.get_pieces_cardinally_pinned_to_king
  dsimp only
  split_ifs <;> first
    | exact fold_pin_lt _ _ _ _ _ (by decide)
    | decide

theorem get_pieces_diagonally_pinned_lt (b : BoardBitmasks) (w : Bool) :
    b.get_pieces_diagonally_pinned_to_king w < u64size := by
  unfold BoardBitmasks.get_pieces_diagonally_pinned_to_king
  dsimp only
  split_ifs <;> first
    | exact fold_pin_lt _ _ _ _ _ (by decide)
    | decide

/-- C9: the pin interface is total.  `check_for_pin` answers `Ok` for every
input on each of the eight king-step directions — the only directions
`get_pieces_cardinally_pinned_to_king` and
`get_pieces_diagonally_pinned_to_king` ever pass — so the `InvalidDirection`
branch is unreachable from them and `get_pieces_pinned_to_king` always
returns a plain 64-bit bitmask. -/
theorem claim_C9_pin_interface_total :
    (∀ (king att dfd : Nat) (d : ChessDirection), isKingStepDirection d = true →
      ∃ v, check_for_pin king d att dfd = .ok v) ∧
    (∀ (b : BoardBitmasks) (w : Bool), b.get_pieces_pinned_to_king w < u64size) := by
  constructor
  · intro king att dfd d hd
    cases d <;> first
      | exact ⟨_, rfl⟩
      | simp [isKingStepDirection] at hd
  · intro b w
    unfold BoardBitmasks.get_pieces_pinned_to_king
    exact Nat.or_lt_two_pow (get_pieces_cardinally_pinned_lt b w)
      (get_pieces_diagonally_pinned_lt b w)

/-- Witness for C9 at a concrete input. -/
theorem claim_C9_pin_interface_total_witness :
    ∃ v, check_for_pin 0 ChessDirection.Up 0 0 = .ok v :=
  claim_C9_pin_interface_total.1 0 0 0 ChessDirection.Up (by decide)

/-- C6: round-trip laws for squares — parsing the rendered two-character
string of any square gives the square back, and converting the single-bit
mask of any square back gives the square. -/
theorem claim_C6_square_roundtrips (s : CoordinatePosition) :
    CoordinatePosition.from_str s.displayChars = .ok s ∧
    CoordinatePosition.from_bitmask s.to_bitmask = .ok s := by
  obtain ⟨x, y⟩ := s
  cases x <;> cases y <;> exact ⟨rfl, rfl⟩

/-- C7: `get_uci_move` renders exactly the grammar
from, "x" iff a capture, to, "=P" iff a promotion, then the check suffix. -/
theorem claim_C7_uci_rendering (m : StandardMove) :
    m.get_uci_move = uci_grammar_rendering m := by
  obtain ⟨s, e, p, ept, promo, tk, chk⟩ := m
  cases tk <;> cases promo <;> cases chk <;> rfl

/-- C8: `get_piece_type_for_capture` fails with `CapturePieceNotFound`
whenever the square misses `all_pieces`, and any `Ok` answer names a piece
class whose own bitboard meets the square. -/
theorem claim_C8_piece_at (b : BoardBitmasks) (cp : CoordinatePosition) :
    (cp.to_bitmask &&& b.all_pieces = 0 →
      b.get_piece_type_for_capture cp = .error (.CapturePieceNotFound cp)) ∧
    (∀ p, b.get_piece_type_for_capture cp = .ok p →
      b.piece_enum_to_bitmask p &&& cp.to_bitmask ≠ 0) := by
  constructor
  · intro h
    unfold BoardBitmasks.get_piece_type_for_capture
    simp [h]
  · intro p hp
    unfold BoardBitmasks.get_piece_type_for_capture at hp
    split_ifs at hp with h1 h2 h3 h4 h5 h6 h7 h8 h9 h10 h11 h12 h13 h14 <;>
      cases hp <;>
      (simp only [BoardBitmasks.piece_enum_to_bitmask]
       rw [Nat.land_comm]
       omega)

/-! Byte-level lemmas for the board flips. -/

theorem land255_eq_mod (x : Nat) : x &&& 255 = x % 256 := by
  have h : (255 : Nat) = 2 ^ 8 - 1 := by norm_num
  have h2 : (256 : Nat) = 2 ^ 8 := by norm_num
  rw [h, h2]
  apply Nat.eq_of_testBit_eq
  intro i
  rw [Nat.testBit_and, Nat.testBit_mod_two_pow, Nat.testBit_two_pow_sub_one]
  exact Bool.and_comm _ _

theorem land255_lt (y : Nat) : y &&& 255 < 256 := by
  rw [land255_eq_mod]
  exact Nat.mod_lt _ (by norm_num)

theorem invert_byte_invol : ∀ b, b < 256 → invert_byte (invert_byte b) = b := by decide

theorem invert_byte_lt : ∀ b, b < 256 → invert_byte b < 256 := by decide

theorem popByte_invert : ∀ b, b < 256 → popByte (invert_byte b) = popByte b := by decide

theorem to_be_from_be (a b c d e f g h : Nat) (ha : a < 256) (hb : b < 256)
    (hc : c < 256) (hd : d < 256) (he : e < 256) (hf : f < 256) (hg : g < 256)
    (hh : h < 256) :
    to_be_bytes (from_be_bytes [a, b, c, d, e, f, g, h]) = [a, b, c, d, e, f, g, h] := by
  simp only [from_be_bytes, List.foldl, to_be_bytes, Nat.shiftRight_eq_div_pow,
    land255_eq_mod, List.cons.injEq, and_true]
  norm_num
  omega

theorem from_be_to_be (x : Nat) (h : x < u64size) :
    from_be_bytes (to_be_bytes x) = x := by
  rw [u64size] at h
  simp only [to_be_bytes, from_be_bytes, List.foldl, Nat.shiftRight_eq_div_pow,
    land255_eq_mod]
  norm_num
  omega

theorem to_be_flip_horizontal (x : Nat) :
    to_be_bytes (ChessFlip.flip_horizontal x) = (to_be_bytes x).map invert_byte := by
  show to_be_bytes (from_be_bytes ((to_be_bytes x).map invert_byte)) = _
  simp only [to_be_bytes, List.map]
  exact to_be_from_be _ _ _ _ _ _ _ _
    (invert_byte_lt _ (land255_lt _)) (invert_byte_lt _ (land255_lt _))
    (invert_byte_lt _ (land255_lt _)) (invert_byte_lt _ (land255_lt _))
    (invert_byte_lt _ (land255_lt _)) (invert_byte_lt _ (land255_lt _))
    (invert_byte_lt _ (land255_lt _)) (invert_byte_lt _ (land255_lt _))

theorem to_be_flip_vertical (x : Nat) :
    to_be_bytes (ChessFlip.flip_vertical x) = (to_be_bytes x).reverse := by
  show to_be_bytes (from_be_bytes ((to_be_bytes x).reverse)) = _
  have hrev : (to_be_bytes x).reverse
      = [x &&& 0xFF, (x >>> 8) &&& 0xFF, (x >>> 16) &&& 0xFF, (x >>> 24) &&& 0xFF,
         (x >>> 32) &&& 0xFF, (x >>> 40) &&& 0xFF, (x >>> 48) &&& 0xFF,
         (x >>> 56) &&& 0xFF] := rfl
  rw [hrev]
  exact to_be_from_be _ _ _ _ _ _ _ _
    (land255_lt _) (land255_lt _) (land255_lt _) (land255_lt _)
    (land255_lt _) (land255_lt _) (land255_lt _) (land255_lt _)

theorem map_invert_invert (x : Nat) :
    ((to_be_bytes x).map invert_byte).map invert_byte = to_be_bytes x := by
  simp only [to_be_bytes, List.map, List.cons.injEq, and_true]
  exact ⟨invert_byte_invol _ (land255_lt _), invert_byte_invol _ (land255_lt _),
    invert_byte_invol _ (land255_lt _), invert_byte_invol _ (land255_lt _),
    invert_byte_invol _ (land255_lt _), invert_byte_invol _ (land255_lt _),
    invert_byte_invol _ (land255_lt _), invert_byte_invol _ (land255_lt _)⟩

theorem flip_horizontal_invol (m : Nat) (h : m < u64size) :
    ChessFlip.flip_horizontal (ChessFlip.flip_horizontal m) = m := by
  show from_be_bytes ((to_be_bytes (ChessFlip.flip_horizontal m)).map invert_byte) = m
  rw [to_be_flip_horizontal, map_invert_invert]
  exact from_be_to_be m h

theorem flip_vertical_invol (m : Nat) (h : m < u64size) :
    ChessFlip.flip_vertical (ChessFlip.flip_vertical m) = m := by
  show from_be_bytes ((to_be_bytes (ChessFlip.flip_vertical m)).reverse) = m
  rw [to_be_flip_vertical, List.reverse_reverse]
  exact from_be_to_be m h

theorem flip_horizontal_vertical_comm (y : Nat) :
    ChessFlip.flip_horizontal (ChessFlip.flip_vertical y)
      = ChessFlip.flip_vertical (ChessFlip.flip_horizontal y) := by
  show from_be_bytes ((to_be_bytes (ChessFlip.flip_vertical y)).map invert_byte)
    = from_be_bytes ((to_be_bytes (ChessFlip.flip_horizontal y)).reverse)
  rw [to_be_flip_vertical, to_be_flip_horizontal]
  rfl

theorem popCount64_flip_horizontal (x : Nat) :
    popCount64 (ChessFlip.flip_horizontal x) = popCount64 x := by
  show ((to_be_bytes (ChessFlip.flip_horizontal x)).map popByte).sum = _
  rw [to_be_flip_horizontal]
  show (((to_be_bytes x).map invert_byte).map popByte).sum
    = ((to_be_bytes x).map popByte).sum
  simp only [to_be_bytes, List.map, List.sum_cons, List.sum_nil]
  rw [popByte_invert _ (land255_lt _), popByte_invert _ (land255_lt _),
    popByte_invert _ (land255_lt _), popByte_invert _ (land255_lt _),
    popByte_invert _ (land255_lt _), popByte_invert _ (land255_lt _),
    popByte_invert _ (land255_lt _), popByte_invert _ (land255_lt _)]

theorem popCount64_flip_vertical (x : Nat) :
    popCount64 (ChessFlip.flip_vertical x) = popCount64 x := by
  show ((to_be_bytes (ChessFlip.flip_vertical x)).map popByte).sum = _
  rw [to_be_flip_vertical]
  have hrev : (to_be_bytes x).reverse
      = [x &&& 0xFF, (x >>> 8) &&& 0xFF, (x >>> 16) &&& 0xFF, (x >>> 24) &&& 0xFF,
         (x >>> 32) &&& 0xFF, (x >>> 40) &&& 0xFF, (x >>> 48) &&& 0xFF,
         (x >>> 56) &&& 0xFF] := rfl
  rw [hrev]
  simp only [popCount64, to_be_bytes, List.map, List.sum_cons, List.sum_nil]
  omega

/-- C10: the board flips are involutions, `flip` is their composition, and
each flip preserves the population count. -/
theorem claim_C10_flip_laws (m : Nat) (h : m < u64size) :
    ChessFlip.flip_horizontal (ChessFlip.flip_horizontal m) = m ∧
    ChessFlip.flip_vertical (ChessFlip.flip_vertical m) = m ∧
    ChessFlip.flip (ChessFlip.flip m) = m ∧
    ChessFlip.flip m = ChessFlip.flip_vertical (ChessFlip.flip_horizontal m) ∧
    popCount64 (ChessFlip.flip_horizontal m) = popCount64 m ∧
    popCount64 (ChessFlip.flip_vertical m) = popCount64 m ∧
    popCount64 (ChessFlip.flip m) = popCount64 m := by
  refine ⟨flip_horizontal_invol m h, flip_vertical_invol m h, ?_, rfl, ?_, ?_, ?_⟩
  · show ChessFlip.flip_vertical (ChessFlip.flip_horizontal
      (ChessFlip.flip_vertical (ChessFlip.flip_horizontal m))) = m
    rw [flip_horizontal_vertical_comm (ChessFlip.flip_horizontal m),
      flip_horizontal_invol m h, flip_vertical_invol m h]
  · exact popCount64_flip_horizontal m
  · exact popCount64_flip_vertical m
  · show popCount64 (ChessFlip.flip_vertical (ChessFlip.flip_horizontal m)) = _
    rw [popCount64_flip_vertical, popCount64_flip_horizontal]

/-- Witness for C10 at a concrete input. -/
theorem claim_C10_flip_laws_witness :
    ChessFlip.flip_horizontal (ChessFlip.flip_horizontal 5) = 5 :=
  (claim_C10_flip_laws 5 (by decide)).1

/-- Witness for C8 at a concrete input. -/
theorem claim_C8_piece_at_witness :
    rookA1Board.get_piece_type_for_capture ⟨.A, .Three⟩
      = .error (.CapturePieceNotFound ⟨.A, .Three⟩) :=
  (claim_C8_piece_at rookA1Board ⟨.A, .Three⟩).1 (by decide)

/-- C1: evaluation of the cardinal slider generator at the failing input —
a lone white rook on a1 with a black pawn on a3, ray direction Up.  The
specification requires destinations a2 (empty) and a3 (the first enemy
piece, a capture).  The code's loop break test `moves & captures == 0`
fires on the first capture-free step, so only a single move is emitted and
the capture on a3 is never generated. -/
theorem claim_C1_ray_terminates_without_capture :
    rookA1PawnA3Board.calculate_cardinal_moves_for_direction .WhiteRook .Up
      = .ok [Move.StandardMove {
          start_position := ⟨.A, .Two⟩
          end_position := ⟨.A, .Two⟩
          piece := .WhiteRook
          en_passant_target := none
          promotion := none
          takes := none
          check := .None }] := rfl

/-- C2: evaluation of the pin detector at the failing input — white king a1,
white pawn a2, black knight a3, black rook a8.  The walk of `check_for_pin`
only sees `attacking_pieces` (compatible enemy sliders) and
`defending_pieces` (friendly pieces); the enemy knight on a3 is treated as
an empty square, so the pawn on a2 is reported pinned even though the
specification's walk rules demand no pin when any other piece stands
between the candidate and the slider. -/
theorem claim_C2_pin_reported_through_blocker :
    knightBlockBoard.get_pieces_pinned_to_king true = sqMask .A .Two := by decide

/-- C3: evaluation of the white pawn generator at the specification's
en-passant scenario — white pawn e5, black pawn d5, en-passant target d6.
The candidate origins `shift(d6, DownLeft) ∪ shift(d6, DownRight)` lie on
rank 5, so intersecting them with `ROW_SIX` always yields the empty mask:
the en-passant sub-generator emits nothing and the full generator returns
only the single push e5e6, not the expected capture from e5 to d6 taking
(d5, BlackPawn). -/
theorem claim_C3_en_passant_never_emitted :
    enPassantBoard.calculate_white_pawn_moves_en_passant (some ⟨.D, .Six⟩) = .ok [] ∧
    enPassantBoard.calculate_white_pawn_moves (some ⟨.D, .Six⟩)
      = .ok [Move.StandardMove {
          start_position := ⟨.E, .Five⟩
          end_position := ⟨.E, .Six⟩
          piece := .WhitePawn
          en_passant_target := none
          promotion := none
          takes := none
          check := .None }] := ⟨rfl, rfl⟩

/-- C4: evaluation of the slider unpack step at the failing input — a lone
white rook on a1, ray direction Up.  `unpack_moves` folds the reverse shift
over `0..index`, applying it `k` times for stack index `k` instead of the
`k + 1` times the specification requires; at index 0 the recovered origin
equals the destination, so the emitted move has `start_position` equal to
`end_position` (a2), a square the rook does not occupy. -/
theorem claim_C4_unpack_origin_off_by_one :
    rookA1Board.calculate_cardinal_moves_for_direction .WhiteRook .Up
      = .ok [Move.StandardMove {
          start_position := ⟨.A, .Two⟩
          end_position := ⟨.A, .Two⟩
          piece := .WhiteRook
          en_passant_target := none
          promotion := none
          takes := none
          check := .None }] := rfl
